import Mathlib

/-!
# Palette viewer of the Qt front end (`src/platform/qt/PaletteView.cpp`)

A shallow embedding of `PaletteView::PaletteView` (the slot wiring),
`PaletteView::updatePalette`, `PaletteView::selectIndex` and
`PaletteView::exportPalette`, followed by the properties of the palette
specification that are settled against it.

Conventions of the embedding:

* a palette buffer (`video.palette`) is a `List Nat` of 16-bit words; a C read
  `palette[k]` is `readWord`, which is `none` where `k` lies outside the buffer
  (the behaviour of the C program is undefined there);
* `int` values are `Int`, and `int` additions and subtractions are reduced by
  `wrap32` (two's complement wrap-around modulo `2^32`);
* `uint32_t` values are `Nat`, reduced modulo `2^32` after each shift;
* widgets are represented by the data they are given: a `Swatch` by the raw
  colour words passed to `setColor`, a text field by its string;
* an exporter call is recorded with the buffer it is handed: the cast through
  which `core->board` is read, the start offset and the entry count.
-/

namespace PaletteView

/-! ## Machine integers -/

/-- Two's complement reduction of an integer to the range of a 32-bit `int`. -/
def wrap32 (x : Int) : Int := (x + 2147483648) % 4294967296 - 2147483648

/-- Reduction of a natural number to the range of a `uint32_t`. -/
def u32 (x : Nat) : Nat := x % 4294967296

/-! ## Platforms and palette memory -/

/-- Values of `m_controller->platform()`, with both cores (`M_CORE_GBA` and
`M_CORE_GB`) compiled in; `none` stands for every value that is neither
`PLATFORM_GBA` nor `PLATFORM_GB`. -/
inductive Platform where
  | none
  | gba
  | gb
  deriving DecidableEq

/-- The struct type through which `core->board` is read to reach
`video.palette`: `static_cast<GBA*>(...)` or `static_cast<GB*>(...)`. -/
inductive BoardCast where
  | gba
  | gb
  deriving DecidableEq

/-- The cast chosen by the `switch` on the platform in `updatePalette` (lines
75-90) and in `selectIndex` (lines 101-114); `none` is the `default: return`.
The `palette` argument of these two functions is the buffer reached this way. -/
def switchCast : Platform → Option BoardCast
  | Platform.gba => some BoardCast.gba
  | Platform.gb => some BoardCast.gb
  | Platform.none => none

/-- The C read `palette[index]` with an `int` index and no bounds check. -/
def readWord (palette : List Nat) (index : Int) : Option Nat :=
  if index < 0 then none else palette[index.toNat]?

/-! ## Colour components -/

/-- Modelled from the spec: the macro `GBA_R5` lives in a header outside this
file; the spec extracts the red component at bit offset 0 with `& 0x1F`. -/
def GBA_R5 (x : Nat) : Nat := x &&& 0x1F

/-- Modelled from the spec: the macro `GBA_G5` lives in a header outside this
file; the spec extracts the green component at bit offset 5 with `& 0x1F`. -/
def GBA_G5 (x : Nat) : Nat := (x >>> 5) &&& 0x1F

/-- Modelled from the spec: the macro `GBA_B5` lives in a header outside this
file; the spec extracts the blue component at bit offset 10 with `& 0x1F`. -/
def GBA_B5 (x : Nat) : Nat := (x >>> 10) &&& 0x1F

/-- Lines 120-121 of `selectIndex` on the three `uint32_t` components:
`hexcode = (r << 19) | (g << 11) | (b << 3); hexcode |= (hexcode >> 5) & 0x070707`. -/
def packHexcode (r g b : Nat) : Nat :=
  let hexcode := u32 (r <<< 19) ||| u32 (g <<< 11) ||| u32 (b <<< 3)
  hexcode ||| ((hexcode >>> 5) &&& 0x070707)

/-- The value of the local `hexcode` of `selectIndex` for the colour word `color`. -/
def hexcodeOf (color : Nat) : Nat :=
  packHexcode (GBA_R5 color) (GBA_G5 color) (GBA_B5 color)

/-! ## Text fields -/

/-- Library call `QString::arg(value, fieldWidth, base, fillChar)` of Qt: the
digits of `n` in `base` (lower case), padded on the left with `fill` up to
`width` characters. -/
def argNum (n width base : Nat) (fill : Char) : String :=
  let digits := Nat.toDigits base n
  String.mk (List.replicate (width - digits.length) fill ++ digits)

/-- Text of the `hexcode` field: `tr("#%0").arg(hexcode, 6, 16, QChar('0'))`. -/
def hexcodeText (hexcode : Nat) : String := "#" ++ argNum hexcode 6 16 '0'

/-- Text of the `value` field: `tr("0x%0").arg(color, 4, 16, QChar('0'))`. -/
def valueText (color : Nat) : String := "0x" ++ argNum color 4 16 '0'

/-- Text of the `index` field: `tr("%0").arg(index, 3, 10, QChar('0'))`, for an
index that is not negative. -/
def indexText (index : Nat) : String := argNum index 3 10 '0'

/-- Text of a component field:
`tr("0x%0 (%1)").arg(c, 2, 16, QChar('0')).arg(c, 2, 10, QChar('0'))`. -/
def componentText (c : Nat) : String :=
  "0x" ++ argNum c 2 16 '0' ++ " (" ++ argNum c 2 10 '0' ++ ")"

/-! ## Widgets -/

/-- The inspector row: the one-cell swatch `selected` and the six text fields. -/
structure Inspector where
  selected : List Nat
  hexcode : String
  value : String
  index : String
  r : String
  g : String
  b : String
  deriving DecidableEq

/-- The inspector before any swatch has been selected. -/
def emptyInspector : Inspector :=
  { selected := [], hexcode := "", value := "", index := "", r := "", g := "", b := "" }

/-- The two colour grids, each a list of the colour words given to `setColor`. -/
structure Grids where
  bgGrid : List Nat
  objGrid : List Nat
  deriving DecidableEq

/-- Outcome of a refresh: the raw offsets read from the palette, in order, and
the grids afterwards (`none` once a read fell outside the buffer). -/
structure Refresh where
  reads : List Nat
  grids : Option Grids
  deriving DecidableEq

/-! ## `PaletteView::PaletteView` -/

/-- The local `count` of the constructor (lines 38-47): 256, or 32 on
`PLATFORM_GB`. -/
def ctorCount (platform : Platform) : Nat :=
  if platform = Platform.gb then 32 else 256

/-- The grids after the `setDimensions` calls of the constructor: 16 x 16 cells,
or 4 x 8 cells on `PLATFORM_GB`. -/
def initialGrids (platform : Platform) : Grids :=
  if platform = Platform.gb then
    { bgGrid := List.replicate (4 * 8) 0, objGrid := List.replicate (4 * 8) 0 }
  else
    { bgGrid := List.replicate (16 * 16) 0, objGrid := List.replicate (16 * 16) 0 }

/-! ## `PaletteView::updatePalette` -/

/-- The `count` chosen by the `switch` of `updatePalette` (lines 75-90); `none`
is the `default: return`. -/
def updateCount : Platform → Option Nat
  | Platform.gba => some 256
  | Platform.gb => some 32
  | Platform.none => none

/-- The C read `palette[k]` with a `size_t` offset, which is never negative: the
offset is appended to the log of offsets read, and the word is returned where
the offset lies inside the buffer. -/
def readLogged (palette : List Nat) (log : List Nat) (k : Nat) : List Nat × Option Nat :=
  (log ++ [k], palette[k]?)

/-- One iteration of the loop at lines 91-94:
`bgGrid->setColor(i, palette[i]); objGrid->setColor(i, palette[i + count])`. -/
def refreshStep (palette : List Nat) (count : Nat) (s : Refresh) (i : Nat) : Refresh :=
  let bgRead := readLogged palette s.reads i
  let objRead := readLogged palette bgRead.1 (i + count)
  { reads := objRead.1
    grids := do
      let g ← s.grids
      let bgWord ← bgRead.2
      let objWord ← objRead.2
      some { bgGrid := g.bgGrid.set i bgWord, objGrid := g.objGrid.set i objWord } }

/-- The loop `for (int i = 0; i < count; ++i)` of `updatePalette`. -/
def refreshLoop (palette : List Nat) (count : Nat) (g : Grids) : Refresh :=
  (List.range count).foldl (refreshStep palette count) { reads := [], grids := some g }

/-- The method `PaletteView::updatePalette`. `threadReady` is the value of
`m_controller->thread() && m_controller->thread()->core`. -/
def updatePalette (platform : Platform) (threadReady : Bool) (palette : List Nat)
    (g : Grids) : Refresh :=
  if !threadReady then { reads := [], grids := some g }
  else
    match updateCount platform with
    | none => { reads := [], grids := some g }
    | some count => refreshLoop palette count g

/-! ## `PaletteView::selectIndex` -/

/-- The method `PaletteView::selectIndex`. The result is `none` where `palette[index]` lies
outside the buffer; on the `default: return` branch the inspector is unchanged. -/
def selectIndex (platform : Platform) (palette : List Nat) (index : Int)
    (old : Inspector) : Option Inspector :=
  match platform with
  | Platform.none => some old
  | _ => do
    let color ← readWord palette index
    let r := GBA_R5 color
    let g := GBA_G5 color
    let b := GBA_B5 color
    let hexcode := packHexcode r g b
    some { selected := [color]
           hexcode := hexcodeText hexcode
           value := valueText color
           index := indexText index.toNat
           r := componentText r
           g := componentText g
           b := componentText b }

/-- Slot wired at line 61: `bgGrid.indexPressed(index)` calls `selectIndex(index)`. -/
def bgIndexPressed (platform : Platform) (palette : List Nat) (index : Int)
    (old : Inspector) : Option Inspector :=
  selectIndex platform palette index old

/-- Slot wired at line 62: `objGrid.indexPressed(index)` calls
`selectIndex(index + count)`. -/
def objIndexPressed (platform : Platform) (palette : List Nat) (index : Int)
    (old : Inspector) : Option Inspector :=
  selectIndex platform palette (wrap32 (index + ctorCount platform)) old

/-! ## `PaletteView::exportPalette` -/

/-- The observable actions of `exportPalette`, in program order. An exporter
call records the buffer it is handed, `&static_cast<T*>(board)->video.palette[start]`,
as the cast `T` and the offset `start`, and the entry count `length`. -/
inductive Effect where
  | threadInterrupt
  | dialogExec
  | openFile
  | logOpenError
  | exportRIFF (cast : BoardCast) (start length : Int)
  | exportACT (cast : BoardCast) (start length : Int)
  | closeFile
  | threadContinue
  deriving DecidableEq

/-- What the surroundings answer during an export: whether the dialog was
accepted, whether the file could be opened, and whether the selected name
filter contains `*.pal` or `*.act`. -/
structure ExportEnv where
  accepted : Bool
  opened : Bool
  filterPal : Bool
  filterAct : Bool
  deriving DecidableEq

/-- The head of `exportPalette` (lines 131-136): `none` is the early `return`
for `start >= 512`, otherwise the pair `(start, length)` the rest of the
function works with. -/
def clampRange (start length : Int) : Option (Int × Int) :=
  if start ≥ 512 then none
  else if wrap32 (start + length) > 512 then some (start, wrap32 (512 - start))
  else some (start, length)

/-- The rest of `exportPalette` (lines 137-158) on the range left by the head,
as the list of its effects. Lines 153 and 155 have no `switch` on the platform:
the buffer handed to either exporter is reached through `static_cast<GBA*>`,
whatever the platform. -/
def exportBody (env : ExportEnv) (start length : Int) : List Effect :=
  [Effect.threadInterrupt, Effect.dialogExec] ++
    (if !env.accepted then [Effect.threadContinue]
     else
      [Effect.openFile] ++
        (if !env.opened then [Effect.logOpenError, Effect.threadContinue]
         else
          (if env.filterPal then [Effect.exportRIFF BoardCast.gba start length]
           else if env.filterAct then [Effect.exportACT BoardCast.gba start length]
           else []) ++ [Effect.closeFile, Effect.threadContinue]))

/-- The method `PaletteView::exportPalette`, as the list of its effects. -/
def exportPalette (env : ExportEnv) (start length : Int) : List Effect :=
  match clampRange start length with
  | none => []
  | some (start, length) => exportBody env start length

/-- Slot wired at line 63: `exportBG.clicked` calls `exportPalette(0, count)`. -/
def exportBGClicked (env : ExportEnv) (platform : Platform) : List Effect :=
  exportPalette env 0 (ctorCount platform)

/-- Slot wired at line 64: `exportOBJ.clicked` calls `exportPalette(count, count)`. -/
def exportOBJClicked (env : ExportEnv) (platform : Platform) : List Effect :=
  exportPalette env (ctorCount platform) (ctorCount platform)

end PaletteView

/-! ## The colour codec and the flat colour table of the specification -/

namespace ColorCodec

/-- The spec's 5-to-8 bit expansion (section 4.1):
`(component5 << 3) | ((component5 << 3) >> 5) & 0x07`. -/
def expand (component5 : Nat) : Nat :=
  (component5 <<< 3) ||| (((component5 <<< 3) >>> 5) &&& 0x07)

/-- The record returned by the spec's `decode`. -/
structure Decoded where
  r5 : Nat
  g5 : Nat
  b5 : Nat
  r8 : Nat
  g8 : Nat
  b8 : Nat
  hex24 : Nat
  hex16 : Nat
  deriving DecidableEq

/-- The spec's `ColorCodec.decode` (section 4.1), written from the spec's words. -/
def decode (raw : Nat) : Decoded :=
  let r5 := raw &&& 0x1F
  let g5 := (raw >>> 5) &&& 0x1F
  let b5 := (raw >>> 10) &&& 0x1F
  let r8 := expand r5
  let g8 := expand g5
  let b8 := expand b5
  { r5 := r5, g5 := g5, b5 := b5, r8 := r8, g8 := g8, b8 := b8
    hex24 := (r8 <<< 16) ||| (g8 <<< 8) ||| b8
    hex16 := raw }

end ColorCodec

namespace PaletteExporter

/-- Failures of the exporters named by the spec. -/
inductive ExportError where
  | unsupportedEntryCount
  deriving DecidableEq

/-- The R, G, B byte triples of the entries, in order. -/
def tableBytes : List Nat → List Nat
  | [] => []
  | e :: es =>
    (ColorCodec.decode e).r8 :: (ColorCodec.decode e).g8 :: (ColorCodec.decode e).b8 ::
      tableBytes es

/-- Modelled from the spec: the Format B (`.act`) exporter is in `util/export.c`,
which is not part of the sources at hand. Section 4.4: a table of exactly 256
R,G,B triples (the first 256 entries, the remaining slots zero-filled), then a
4-byte trailer, the used-entry count as 2 bytes big-endian followed by 2 zero
bytes; an empty input fails with `UnsupportedEntryCount`. -/
def exportFormatB (entries : List Nat) : Except ExportError (List Nat) :=
  if entries.isEmpty then Except.error ExportError.unsupportedEntryCount
  else
    let used := entries.take 256
    let table := tableBytes used ++ List.replicate (3 * (256 - used.length)) 0
    let count := used.length
    Except.ok (table ++ [count / 256 % 256, count % 256, 0, 0])

end PaletteExporter

namespace PaletteView

/-! ## Colour arithmetic -/

/-- On three 5-bit components the packed computation of `selectIndex` yields the
three expanded bytes side by side, each in its own byte of the result. -/
theorem packHexcode_bytes : ∀ r, r < 32 → ∀ g, g < 32 → ∀ b, b < 32 →
    packHexcode r g b
        = (ColorCodec.expand r <<< 16) ||| (ColorCodec.expand g <<< 8) ||| ColorCodec.expand b ∧
      (packHexcode r g b >>> 16) &&& 0xFF = ColorCodec.expand r ∧
      (packHexcode r g b >>> 8) &&& 0xFF = ColorCodec.expand g ∧
      packHexcode r g b &&& 0xFF = ColorCodec.expand b := by
  decide!

theorem GBA_R5_lt (x : Nat) : GBA_R5 x < 32 :=
  Nat.and_lt_two_pow x (show 0x1F < 2 ^ 5 by decide)

theorem GBA_G5_lt (x : Nat) : GBA_G5 x < 32 :=
  Nat.and_lt_two_pow (x >>> 5) (show 0x1F < 2 ^ 5 by decide)

theorem GBA_B5_lt (x : Nat) : GBA_B5 x < 32 :=
  Nat.and_lt_two_pow (x >>> 10) (show 0x1F < 2 ^ 5 by decide)

/-- A 5-bit field at bit offset `k` is determined by the bits `k .. k+4`. -/
theorem field_eq_of_bits (v w k : Nat)
    (h : ∀ i, i < 5 → v.testBit (k + i) = w.testBit (k + i)) :
    (v >>> k) &&& 0x1F = (w >>> k) &&& 0x1F := by
  apply Nat.eq_of_testBit_eq
  intro i
  have h31 : (0x1F : Nat) = 2 ^ 5 - 1 := by decide
  rw [h31, Nat.testBit_and, Nat.testBit_and, Nat.testBit_two_pow_sub_one,
    Nat.testBit_shiftRight, Nat.testBit_shiftRight]
  by_cases hi : i < 5
  · rw [h i hi]
  · simp [hi]

theorem GBA_R5_eq_of_bits (v w : Nat) (h : ∀ i, i < 5 → v.testBit i = w.testBit i) :
    GBA_R5 v = GBA_R5 w := by
  have := field_eq_of_bits v w 0 (fun i hi => by simpa using h i hi)
  simpa [GBA_R5] using this

theorem GBA_G5_eq_of_bits (v w : Nat)
    (h : ∀ i, 5 ≤ i → i < 10 → v.testBit i = w.testBit i) : GBA_G5 v = GBA_G5 w :=
  field_eq_of_bits v w 5 (fun i hi => h (5 + i) (by omega) (by omega))

theorem GBA_B5_eq_of_bits (v w : Nat)
    (h : ∀ i, 10 ≤ i → i < 15 → v.testBit i = w.testBit i) : GBA_B5 v = GBA_B5 w :=
  field_eq_of_bits v w 10 (fun i hi => h (10 + i) (by omega) (by omega))

/-- The hexcode of a colour word is the spec's `hex24`, and its three bytes are
the expansions of the three 5-bit components. -/
theorem hexcodeOf_bytes (v : Nat) :
    hexcodeOf v = (ColorCodec.decode v).hex24 ∧
      (hexcodeOf v >>> 16) &&& 0xFF = ColorCodec.expand (GBA_R5 v) ∧
      (hexcodeOf v >>> 8) &&& 0xFF = ColorCodec.expand (GBA_G5 v) ∧
      hexcodeOf v &&& 0xFF = ColorCodec.expand (GBA_B5 v) :=
  packHexcode_bytes (GBA_R5 v) (GBA_R5_lt v) (GBA_G5 v) (GBA_G5_lt v) (GBA_B5 v) (GBA_B5_lt v)

/-- What `selectIndex` stores once the word `v` has been read at `index`. -/
theorem selectIndex_of_read (p : Platform) (palette : List Nat) (index : Int)
    (old : Inspector) (v : Nat) (hp : p ≠ Platform.none)
    (hread : readWord palette index = some v) :
    selectIndex p palette index old =
      some { selected := [v]
             hexcode := hexcodeText (hexcodeOf v)
             value := valueText v
             index := indexText index.toNat
             r := componentText (GBA_R5 v)
             g := componentText (GBA_G5 v)
             b := componentText (GBA_B5 v) } := by
  cases p with
  | none => exact absurd rfl hp
  | gba => simp [selectIndex, hread, hexcodeOf]
  | gb => simp [selectIndex, hread, hexcodeOf]

theorem readWord_ofNat (palette : List Nat) (n : Nat) :
    readWord palette (n : Int) = palette[n]? := by
  simp [readWord]

theorem readWord_inside (palette : List Nat) (index : Int) (h0 : 0 ≤ index)
    (h1 : index < palette.length) :
    ∃ v, palette[index.toNat]? = some v ∧ readWord palette index = some v := by
  have hlt : index.toNat < palette.length := by omega
  refine ⟨palette[index.toNat], List.getElem?_eq_getElem hlt, ?_⟩
  simp [readWord, Int.not_lt.mpr h0, List.getElem?_eq_getElem hlt]

/-! ## C1 -/

/-- C1: for every raw colour `v`, with `r5 = v & 0x1F`, `g5 = (v >> 5) & 0x1F`,
`b5 = (v >> 10) & 0x1F`, the hexcode that `selectIndex` computes in packed form
equals `(r8 << 16) | (g8 << 8) | b8`, each `c8` being the per-component expansion
`(c5 << 3) | (((c5 << 3) >> 5) & 0x07)`; this is the spec's `hex24` and the
number `selectIndex` renders in the hexcode field, and the words `0x0000` and
`0x7FFF` give `0x000000` and `0xFFFFFF`. -/
theorem hexcode_eq_expanded_components (v : Nat) :
    hexcodeOf v
        = (ColorCodec.expand (v &&& 0x1F) <<< 16)
          ||| (ColorCodec.expand ((v >>> 5) &&& 0x1F) <<< 8)
          ||| ColorCodec.expand ((v >>> 10) &&& 0x1F) ∧
      hexcodeOf v = (ColorCodec.decode v).hex24 ∧
      (∀ old, (selectIndex Platform.gba [v] 0 old).map Inspector.hexcode
        = some (hexcodeText (ColorCodec.decode v).hex24)) ∧
      hexcodeOf 0x0000 = 0x000000 ∧ hexcodeOf 0x7FFF = 0xFFFFFF := by
  refine ⟨(hexcodeOf_bytes v).1, (hexcodeOf_bytes v).1, fun old => ?_, by decide, by decide⟩
  rw [selectIndex_of_read Platform.gba [v] 0 old v (by decide) rfl, ← (hexcodeOf_bytes v).1]
  rfl

/-! ## C7 -/

/-- C7: for raw values `v` and `w`, agreement on bits 0-4 gives the same red byte
(bits 16-23) of the hexcode, agreement on bits 5-9 the same green byte (bits
8-15), agreement on bits 10-14 the same blue byte (bits 0-7); agreement on bits
0-14 gives the same hexcode, so bit 15 influences nothing. -/
theorem hexcode_component_isolation (v w : Nat) :
    ((∀ i, i < 5 → v.testBit i = w.testBit i) →
        (hexcodeOf v >>> 16) &&& 0xFF = (hexcodeOf w >>> 16) &&& 0xFF) ∧
      ((∀ i, 5 ≤ i → i < 10 → v.testBit i = w.testBit i) →
        (hexcodeOf v >>> 8) &&& 0xFF = (hexcodeOf w >>> 8) &&& 0xFF) ∧
      ((∀ i, 10 ≤ i → i < 15 → v.testBit i = w.testBit i) →
        hexcodeOf v &&& 0xFF = hexcodeOf w &&& 0xFF) ∧
      ((∀ i, i < 15 → v.testBit i = w.testBit i) → hexcodeOf v = hexcodeOf w) := by
  refine ⟨fun h => ?_, fun h => ?_, fun h => ?_, fun h => ?_⟩
  · rw [(hexcodeOf_bytes v).2.1, (hexcodeOf_bytes w).2.1, GBA_R5_eq_of_bits v w h]
  · rw [(hexcodeOf_bytes v).2.2.1, (hexcodeOf_bytes w).2.2.1, GBA_G5_eq_of_bits v w h]
  · rw [(hexcodeOf_bytes v).2.2.2, (hexcodeOf_bytes w).2.2.2, GBA_B5_eq_of_bits v w h]
  · unfold hexcodeOf
    rw [GBA_R5_eq_of_bits v w (fun i hi => h i (by omega)),
      GBA_G5_eq_of_bits v w (fun i _ hi => h i (by omega)),
      GBA_B5_eq_of_bits v w (fun i _ hi => h i (by omega))]

/-- The isolation property at words that share one component only, and at two
words that differ in bit 15 alone. -/
theorem hexcode_component_isolation_witness :
    ((hexcodeOf 0x7FFF >>> 16) &&& 0xFF = (hexcodeOf 0x801F >>> 16) &&& 0xFF) ∧
      ((hexcodeOf 0x7FFF >>> 8) &&& 0xFF = (hexcodeOf 0x83E0 >>> 8) &&& 0xFF) ∧
      (hexcodeOf 0x7FFF &&& 0xFF = hexcodeOf 0xFC00 &&& 0xFF) ∧
      hexcodeOf 0x1234 = hexcodeOf 0x9234 :=
  ⟨(hexcode_component_isolation 0x7FFF 0x801F).1 (by decide),
    (hexcode_component_isolation 0x7FFF 0x83E0).2.1 (by decide),
    (hexcode_component_isolation 0x7FFF 0xFC00).2.2.1 (by decide),
    (hexcode_component_isolation 0x1234 0x9234).2.2.2 (by decide)⟩

/-! ## C8 -/

/-- C8, as the code has it: once `selectIndex` has read the word `v`, the `r`,
`g` and `b` fields show the 5-bit components `r5`, `g5`, `b5` of `v` (each below
32) in hex and decimal, while the hexcode field shows `hex24`, whose three bytes
are the expansions `r8`, `g8`, `b8` of those components. -/
theorem inspector_fields_show_five_bit_components (p : Platform) (palette : List Nat)
    (index : Int) (old : Inspector) (v : Nat) (hp : p ≠ Platform.none)
    (hread : readWord palette index = some v) :
    ∃ row, selectIndex p palette index old = some row ∧
      row.r = componentText (ColorCodec.decode v).r5 ∧
      row.g = componentText (ColorCodec.decode v).g5 ∧
      row.b = componentText (ColorCodec.decode v).b5 ∧
      (ColorCodec.decode v).r5 < 32 ∧ (ColorCodec.decode v).g5 < 32 ∧
      (ColorCodec.decode v).b5 < 32 ∧
      row.hexcode = hexcodeText (ColorCodec.decode v).hex24 ∧
      ((ColorCodec.decode v).hex24 >>> 16) &&& 0xFF = (ColorCodec.decode v).r8 ∧
      ((ColorCodec.decode v).hex24 >>> 8) &&& 0xFF = (ColorCodec.decode v).g8 ∧
      (ColorCodec.decode v).hex24 &&& 0xFF = (ColorCodec.decode v).b8 := by
  have hb := hexcodeOf_bytes v
  refine ⟨_, selectIndex_of_read p palette index old v hp hread, rfl, rfl, rfl,
    GBA_R5_lt v, GBA_G5_lt v, GBA_B5_lt v, ?_, ?_, ?_, ?_⟩
  · show hexcodeText (hexcodeOf v) = _
    rw [hb.1]
  · rw [← hb.1]; exact hb.2.1
  · rw [← hb.1]; exact hb.2.2.1
  · rw [← hb.1]; exact hb.2.2.2

/-- The white word `0x7FFF` read on the GBA: every component field shows
`0x1f (31)`. -/
theorem inspector_fields_show_five_bit_components_witness :
    ∃ row, selectIndex Platform.gba [0x7FFF] 0 emptyInspector = some row ∧
      row.r = "0x1f (31)" ∧ row.g = "0x1f (31)" ∧ row.b = "0x1f (31)" ∧
      row.hexcode = "#ffffff" := by
  obtain ⟨row, hrow, hr, hg, hb, -, -, -, hhex, -⟩ :=
    inspector_fields_show_five_bit_components Platform.gba [0x7FFF] 0 emptyInspector 0x7FFF
      (by decide) (by decide)
  exact ⟨row, hrow, hr.trans (by decide), hg.trans (by decide), hb.trans (by decide),
    hhex.trans (by decide)⟩

/-- C8 fails as stated: for `v = 0x7FFF` the `r`, `g` and `b` fields show
`0x1f (31)`, the 5-bit components, where the decoded 8-bit components would be
shown as `0xff (255)`. -/
theorem inspector_fields_not_eight_bit :
    ∃ row, selectIndex Platform.gba [0x7FFF] 0 emptyInspector = some row ∧
      row.r = "0x1f (31)" ∧ row.g = "0x1f (31)" ∧ row.b = "0x1f (31)" ∧
      componentText (ColorCodec.decode 0x7FFF).r8 = "0xff (255)" ∧
      row.r ≠ componentText (ColorCodec.decode 0x7FFF).r8 ∧
      row.g ≠ componentText (ColorCodec.decode 0x7FFF).g8 ∧
      row.b ≠ componentText (ColorCodec.decode 0x7FFF).b8 := by
  refine ⟨_, selectIndex_of_read Platform.gba [0x7FFF] 0 emptyInspector 0x7FFF
    (by decide) (by decide), ?_, ?_, ?_, ?_, ?_, ?_, ?_⟩ <;> decide

/-! ## The range clamp -/

theorem wrap32_of_int_range (x : Int) (h0 : -2147483648 ≤ x) (h1 : x ≤ 2147483647) :
    wrap32 x = x := by
  unfold wrap32
  omega

theorem ctorCount_cases (p : Platform) : ctorCount p = 32 ∨ ctorCount p = 256 := by
  cases p <;> simp [ctorCount]

theorem updateCount_eq_ctorCount (p : Platform) (hp : p ≠ Platform.none) :
    updateCount p = some (ctorCount p) := by
  cases p with
  | none => exact absurd rfl hp
  | gba => rfl
  | gb => rfl

/-- Once the head leaves a range, `exportPalette` is its body on that range. -/
theorem exportPalette_of_clampRange (env : ExportEnv) (start length start' length' : Int)
    (h : clampRange start length = some (start', length')) :
    exportPalette env start length = exportBody env start' length' := by
  unfold exportPalette
  rw [h]

/-! ## C2 -/

/-- C5: for every `start >= 512` and every `length`, `exportPalette` returns at
once: it has no effect at all (no thread interrupt, no dialog, no file, no
exporter call, no error log) and no range is left for an exporter. -/
theorem exportPalette_past_end_no_effect (env : ExportEnv) (start length : Int)
    (h : 512 ≤ start) :
    exportPalette env start length = [] ∧ clampRange start length = none := by
  have hc : clampRange start length = none := by
    unfold clampRange
    rw [if_pos h]
  exact ⟨by unfold exportPalette; rw [hc], hc⟩

/-- The request `(512, 10)` has no effect. -/
theorem exportPalette_past_end_no_effect_witness :
    (512 : Int) ≤ 512 ∧
      exportPalette { accepted := true, opened := true, filterPal := false, filterAct := true }
          512 10 = [] ∧
      clampRange 512 10 = none :=
  ⟨by decide, exportPalette_past_end_no_effect _ 512 10 (by decide)⟩

/-! ## C10 -/

/-- The offsets read by the first `m` iterations of the refresh loop. -/
theorem refreshLoop_reads_aux (palette : List Nat) (count : Nat) (s : Refresh) (m : Nat) :
    ((List.range m).foldl (refreshStep palette count) s).reads
      = s.reads ++ (List.range m).flatMap (fun i => [i, i + count]) := by
  induction m with
  | zero => simp
  | succ m ih =>
    rw [List.range_succ, List.foldl_append, List.flatMap_append]
    simp [refreshStep, readLogged, ih]

/-- The grids after the first `m` iterations of the refresh loop, when the buffer
holds every word these iterations read. -/
theorem refreshLoop_grids_aux (palette : List Nat) (count : Nat) (g : Grids) (m : Nat)
    (hm : m + count ≤ palette.length) :
    ∃ gr, ((List.range m).foldl (refreshStep palette count)
              { reads := [], grids := some g }).grids = some gr ∧
      gr.bgGrid.length = g.bgGrid.length ∧ gr.objGrid.length = g.objGrid.length ∧
      (∀ j, j < m → j < g.bgGrid.length → gr.bgGrid[j]? = palette[j]?) ∧
      (∀ j, j < m → j < g.objGrid.length → gr.objGrid[j]? = palette[j + count]?) := by
  induction m with
  | zero => exact ⟨g, by simp, rfl, rfl, by omega, by omega⟩
  | succ m ih =>
    obtain ⟨gr, hgr, hbl, hol, hb, ho⟩ := ih (by omega)
    have h1 : m < palette.length := by omega
    have h2 : m + count < palette.length := by omega
    refine ⟨{ bgGrid := gr.bgGrid.set m palette[m], objGrid := gr.objGrid.set m palette[m + count] },
      ?_, by simpa using hbl, by simpa using hol, ?_, ?_⟩
    · rw [List.range_succ, List.foldl_append]
      simp [refreshStep, readLogged, hgr, List.getElem?_eq_getElem h1,
        List.getElem?_eq_getElem h2]
    · intro j hj hlen
      by_cases hjm : j = m
      · subst hjm
        simp [List.getElem?_set, hbl, hlen, List.getElem?_eq_getElem h1]
      · rw [List.getElem?_set_ne (Ne.symm hjm)]
        exact hb j (by omega) hlen
    · intro j hj hlen
      by_cases hjm : j = m
      · subst hjm
        simp [List.getElem?_set, hol, hlen, List.getElem?_eq_getElem h2]
      · rw [List.getElem?_set_ne (Ne.symm hjm)]
        exact ho j (by omega) hlen

theorem updatePalette_eq_refreshLoop (p : Platform) (palette : List Nat) (g : Grids)
    (hp : p ≠ Platform.none) :
    updatePalette p true palette g = refreshLoop palette (ctorCount p) g := by
  simp [updatePalette, updateCount_eq_ctorCount p hp]

theorem mem_refresh_offsets (c x : Nat) :
    x ∈ (List.range c).flatMap (fun i => [i, i + c]) ↔ x < 2 * c := by
  simp only [List.mem_flatMap, List.mem_range, List.mem_cons, List.mem_singleton,
    List.not_mem_nil, or_false]
  constructor
  · rintro ⟨i, hi, rfl | rfl⟩ <;> omega
  · intro h
    by_cases hx : x < c
    · exact ⟨x, hx, Or.inl rfl⟩
    · exact ⟨x - c, by omega, Or.inr (by omega)⟩

/-- The offsets a refresh reads on a supported platform with region size `c`:
`i` and `i + c` for `i` in `[0, c)`, that is, exactly the offsets below `2 * c`;
nothing is read when the thread is not ready. -/
theorem updatePalette_reads (p : Platform) (palette : List Nat) (g : Grids)
    (hp : p ≠ Platform.none) :
    (updatePalette p true palette g).reads
        = (List.range (ctorCount p)).flatMap (fun i => [i, i + ctorCount p]) ∧
      (∀ x, x ∈ (updatePalette p true palette g).reads ↔ x < 2 * ctorCount p) ∧
      (updatePalette p false palette g).reads = [] := by
  have hreads : (updatePalette p true palette g).reads
      = (List.range (ctorCount p)).flatMap (fun i => [i, i + ctorCount p]) := by
    rw [updatePalette_eq_refreshLoop p palette g hp]
    unfold refreshLoop
    rw [refreshLoop_reads_aux]
    rfl
  refine ⟨hreads, fun x => ?_, by simp [updatePalette]⟩
  rw [hreads]
  exact mem_refresh_offsets (ctorCount p) x

/-- The two export requests wired by the constructor pass the head of
`exportPalette` unchanged. -/
theorem wired_exports_pass_clamp (env : ExportEnv) (p : Platform) :
    exportBGClicked env p = exportBody env 0 (ctorCount p) ∧
      exportOBJClicked env p = exportBody env (ctorCount p) (ctorCount p) := by
  have hc := ctorCount_cases p
  have hbg : clampRange 0 (ctorCount p) = some ((0 : Int), (ctorCount p : Int)) := by
    rcases hc with h | h <;> rw [h] <;> decide
  have hobj : clampRange (ctorCount p) (ctorCount p)
      = some ((ctorCount p : Int), (ctorCount p : Int)) := by
    rcases hc with h | h <;> rw [h] <;> decide
  exact ⟨exportPalette_of_clampRange env _ _ _ _ hbg,
    exportPalette_of_clampRange env _ _ _ _ hobj⟩

/-! ## C9 -/

/-- C9 on the GB (region size 32), with the dialog accepted, the file opened and
the `*.pal` filter chosen: the refresh and `selectIndex` reach the palette
through `static_cast<GB*>`, but both wired export requests, `(0, 32)` and
`(32, 32)`, hand the exporter a buffer reached through `static_cast<GBA*>`, so
the 32 words each of them exports are not the active entries of the GB
palette. -/
theorem export_on_gb_reads_through_gba_cast :
    switchCast Platform.gb = some BoardCast.gb ∧
      exportBGClicked { accepted := true, opened := true, filterPal := true, filterAct := false }
          Platform.gb
        = [Effect.threadInterrupt, Effect.dialogExec, Effect.openFile,
            Effect.exportRIFF BoardCast.gba 0 32, Effect.closeFile, Effect.threadContinue] ∧
      exportOBJClicked { accepted := true, opened := true, filterPal := true, filterAct := false }
          Platform.gb
        = [Effect.threadInterrupt, Effect.dialogExec, Effect.openFile,
            Effect.exportRIFF BoardCast.gba 32 32, Effect.closeFile, Effect.threadContinue] ∧
      BoardCast.gba ≠ BoardCast.gb := by
  decide

/-! ## C3 -/

/-- C3: for the region size `c` of a supported platform, a buffer holding the
`2 * c` active entries and a position `j < c`: pressing background swatch `j`
is `selectIndex(j)` and shows the word at raw offset `j`, pressing object swatch
`j` is `selectIndex(c + j)` and shows the word at raw offset `c + j`; a refresh
puts these same two words at position `j` of the background and of the object
grid. -/
theorem swatch_selection_matches_refresh (p : Platform) (palette : List Nat) (g : Grids)
    (old : Inspector) (j : Nat) (hp : p ≠ Platform.none)
    (hlen : 2 * ctorCount p ≤ palette.length)
    (hbg : g.bgGrid.length = ctorCount p) (hobj : g.objGrid.length = ctorCount p)
    (hj : j < ctorCount p) :
    ∃ wb wo gr rowb rowo,
      palette[j]? = some wb ∧ palette[ctorCount p + j]? = some wo ∧
      bgIndexPressed p palette j old = selectIndex p palette j old ∧
      objIndexPressed p palette j old = selectIndex p palette (ctorCount p + j : Nat) old ∧
      bgIndexPressed p palette j old = some rowb ∧
      rowb.selected = [wb] ∧ rowb.index = indexText j ∧
      objIndexPressed p palette j old = some rowo ∧
      rowo.selected = [wo] ∧ rowo.index = indexText (ctorCount p + j) ∧
      (updatePalette p true palette g).grids = some gr ∧
      gr.bgGrid[j]? = some wb ∧ gr.objGrid[j]? = some wo := by
  have hc := ctorCount_cases p
  have h1 : j < palette.length := by omega
  have h2 : ctorCount p + j < palette.length := by omega
  obtain ⟨gr, hgr, -, -, hb, ho⟩ :=
    refreshLoop_grids_aux palette (ctorCount p) g (ctorCount p) (by omega)
  have hw : wrap32 ((j : Int) + (ctorCount p : Int)) = ((ctorCount p + j : Nat) : Int) := by
    rw [wrap32_of_int_range _ (by omega) (by omega)]
    omega
  have hobjsel : objIndexPressed p palette j old
      = selectIndex p palette (ctorCount p + j : Nat) old := by
    unfold objIndexPressed
    rw [hw]
  have hrb : readWord palette (j : Int) = some palette[j] := by
    rw [readWord_ofNat, List.getElem?_eq_getElem h1]
  have hro : readWord palette ((ctorCount p + j : Nat) : Int) = some palette[ctorCount p + j] := by
    rw [readWord_ofNat, List.getElem?_eq_getElem h2]
  refine ⟨palette[j], palette[ctorCount p + j], gr, _, _,
    List.getElem?_eq_getElem h1, List.getElem?_eq_getElem h2, rfl, hobjsel,
    selectIndex_of_read p palette j old _ hp hrb, rfl, by simp,
    hobjsel.trans (selectIndex_of_read p palette _ old _ hp hro), rfl,
    congrArg indexText (Int.toNat_ofNat _), ?_, ?_, ?_⟩
  · rw [updatePalette_eq_refreshLoop p palette g hp]
    exact hgr
  · rw [hb j hj (by omega), List.getElem?_eq_getElem h1]
  · rw [ho j hj (by omega), Nat.add_comm, List.getElem?_eq_getElem h2]

/-- Swatch 3 on the GB, with a buffer whose word at offset `k` is `k`: the
background selection shows word 3, the object selection word 35. -/
theorem swatch_selection_matches_refresh_witness :
    ∃ gr rowb rowo,
      bgIndexPressed Platform.gb (List.range 64) 3 emptyInspector = some rowb ∧
      rowb.selected = [3] ∧
      objIndexPressed Platform.gb (List.range 64) 3 emptyInspector = some rowo ∧
      rowo.selected = [35] ∧
      (updatePalette Platform.gb true (List.range 64) (initialGrids Platform.gb)).grids
        = some gr ∧
      gr.bgGrid[3]? = some 3 ∧ gr.objGrid[3]? = some 35 := by
  obtain ⟨wb, wo, gr, rowb, rowo, h1, h2, -, -, h5, h6, -, h8, h9, -, h11, h12, h13⟩ :=
    swatch_selection_matches_refresh Platform.gb (List.range 64) (initialGrids Platform.gb)
      emptyInspector 3 (by decide) (by decide) (by decide) (by decide) (by decide)
  have e1 : wb = 3 := by
    have : (List.range 64)[3]? = some 3 := by decide
    rw [this] at h1
    exact (Option.some.inj h1).symm
  have e2 : wo = 35 := by
    have : (List.range 64)[ctorCount Platform.gb + 3]? = some 35 := by decide
    rw [this] at h2
    exact (Option.some.inj h2).symm
  subst e1 e2
  exact ⟨gr, rowb, rowo, h5, h6, h8, h9, h11, h12, h13⟩

/-! ## C6 -/

/-- C6, as the code has it: `selectIndex` reads `palette[index]` without any range
check against the region size. For a supported platform and every index inside
the palette buffer it succeeds and shows the word at raw offset `index`; so it
succeeds on all of `[0, 2c)` when the buffer holds the `2 * c` active entries,
and equally for an index at or past `2 * c` that is still inside the buffer. -/
theorem selectIndex_unchecked_read (p : Platform) (palette : List Nat) (index : Int)
    (old : Inspector) (hp : p ≠ Platform.none) (h0 : 0 ≤ index)
    (h1 : index < palette.length) :
    ∃ v row, palette[index.toNat]? = some v ∧
      selectIndex p palette index old = some row ∧
      row.selected = [v] ∧ row.value = valueText v ∧ row.index = indexText index.toNat ∧
      (2 * ctorCount p ≤ palette.length → ∀ i : Int, 0 ≤ i → i < 2 * ctorCount p →
        ∃ r, selectIndex p palette i old = some r) := by
  obtain ⟨v, hv, hread⟩ := readWord_inside palette index h0 h1
  refine ⟨v, _, hv, selectIndex_of_read p palette index old v hp hread, rfl, rfl, rfl, ?_⟩
  intro hlen i hi0 hi1
  obtain ⟨w, -, hw⟩ := readWord_inside palette i hi0 (by omega)
  exact ⟨_, selectIndex_of_read p palette i old w hp hw⟩

/-- Index 40 on the GB, inside the region pair `[0, 64)` of a 64-word buffer. -/
theorem selectIndex_unchecked_read_witness :
    ∃ row, selectIndex Platform.gb (List.range 64) 40 emptyInspector = some row ∧
      row.selected = [40] := by
  obtain ⟨v, row, hv, hrow, hsel, -⟩ :=
    selectIndex_unchecked_read Platform.gb (List.range 64) 40 emptyInspector
      (by decide) (by decide) (by decide)
  have e : v = 40 := by
    have : (List.range 64)[Int.toNat 40]? = some 40 := by decide
    rw [this] at hv
    exact (Option.some.inj hv).symm
  subst e
  exact ⟨row, hrow, hsel⟩

/-- C6 fails as stated: with region size 32 (GB) the index 64 lies outside
`[0, 2 * 32)`, yet on a 512-word buffer `selectIndex(64)` does not fail; it shows
the word at raw offset 64. -/
theorem selectIndex_outside_region_returns_word :
    ¬ ((64 : Int) < 2 * ctorCount Platform.gb) ∧
      ∃ row, selectIndex Platform.gb (List.range 512) 64 emptyInspector = some row ∧
        row.selected = [64] ∧ row.value = "0x0040" ∧ row.index = "064" := by
  have hread : readWord (List.range 512) 64 = some 64 := by
    have h := readWord_ofNat (List.range 512) 64
    rw [List.getElem?_range (by decide)] at h
    exact h
  refine ⟨by decide, _, selectIndex_of_read Platform.gb (List.range 512) 64 emptyInspector 64
    (by decide) hread, rfl, by decide, by decide⟩

end PaletteView

namespace PaletteExporter

/-! ## The flat colour table -/

theorem tableBytes_length (l : List Nat) : (tableBytes l).length = 3 * l.length := by
  induction l with
  | nil => rfl
  | cons e es ih => simp [tableBytes, ih]; omega

/-- The three bytes of entry `k` in the table. -/
theorem tableBytes_getElem (l : List Nat) (k e : Nat) (h : l[k]? = some e) :
    (tableBytes l)[3 * k]? = some (ColorCodec.decode e).r8 ∧
      (tableBytes l)[3 * k + 1]? = some (ColorCodec.decode e).g8 ∧
      (tableBytes l)[3 * k + 2]? = some (ColorCodec.decode e).b8 := by
  induction l generalizing k with
  | nil => simp at h
  | cons x xs ih =>
    cases k with
    | zero =>
      simp at h
      subst h
      simp [tableBytes]
    | succ k =>
      simp at h
      have := ih k h
      refine ⟨?_, ?_, ?_⟩
      · rw [show 3 * (k + 1) = 3 * k + 1 + 1 + 1 by omega]
        simpa [tableBytes] using this.1
      · rw [show 3 * (k + 1) + 1 = (3 * k + 1) + 1 + 1 + 1 by omega]
        simpa [tableBytes] using this.2.1
      · rw [show 3 * (k + 1) + 2 = (3 * k + 2) + 1 + 1 + 1 by omega]
        simpa [tableBytes] using this.2.2

/-! ## C4 -/

/-- C4: for `n` supplied entries with `1 <= n <= 256` the Format B export
succeeds with exactly `256 * 3 + 4 = 772` bytes: bytes `3k .. 3k+2` are the
decoded `(R8, G8, B8)` of entry `k` for `k < n`, the bytes of the table slots
`n .. 255` are zero, and the trailer is `n` as a 2-byte big-endian count followed
by two zero bytes. -/
theorem exportFormatB_layout (entries : List Nat) (h1 : 1 ≤ entries.length)
    (h256 : entries.length ≤ 256) :
    ∃ bytes, exportFormatB entries = Except.ok bytes ∧
      bytes.length = 256 * 3 + 4 ∧ bytes.length = 772 ∧
      (∀ k e, entries[k]? = some e →
        bytes[3 * k]? = some (ColorCodec.decode e).r8 ∧
        bytes[3 * k + 1]? = some (ColorCodec.decode e).g8 ∧
        bytes[3 * k + 2]? = some (ColorCodec.decode e).b8) ∧
      (∀ i, 3 * entries.length ≤ i → i < 768 → bytes[i]? = some 0) ∧
      (∃ hi lo, bytes[768]? = some hi ∧ bytes[769]? = some lo ∧ hi < 256 ∧ lo < 256 ∧
        256 * hi + lo = entries.length) ∧
      bytes[770]? = some 0 ∧ bytes[771]? = some 0 := by
  have hne : entries.isEmpty = false := by
    cases entries with
    | nil => simp at h1
    | cons _ _ => rfl
  have htake : entries.take 256 = entries := List.take_of_length_le h256
  have hT : (tableBytes entries).length = 3 * entries.length := tableBytes_length entries
  have hlen : (tableBytes entries ++ List.replicate (3 * (256 - entries.length)) 0).length
      = 768 := by
    rw [List.length_append, List.length_replicate, hT]
    omega
  refine ⟨(tableBytes entries ++ List.replicate (3 * (256 - entries.length)) 0) ++
      [entries.length / 256 % 256, entries.length % 256, 0, 0], ?_, ?_, ?_, ?_, ?_, ?_, ?_, ?_⟩
  · simp [exportFormatB, hne, htake]
  · rw [List.length_append, hlen]; rfl
  · rw [List.length_append, hlen]; rfl
  · intro k e hk
    have hklt : k < entries.length := by
      rcases Nat.lt_or_ge k entries.length with h | h
      · exact h
      · rw [List.getElem?_eq_none h] at hk
        exact absurd hk (by simp)
    obtain ⟨a, b, c⟩ := tableBytes_getElem entries k e hk
    refine ⟨?_, ?_, ?_⟩
    · rw [List.getElem?_append_left (by omega), List.getElem?_append_left (by omega)]
      exact a
    · rw [List.getElem?_append_left (by omega), List.getElem?_append_left (by omega)]
      exact b
    · rw [List.getElem?_append_left (by omega), List.getElem?_append_left (by omega)]
      exact c
  · intro i hi hi'
    rw [List.getElem?_append_left (by omega), List.getElem?_append_right (by omega),
      List.getElem?_replicate_of_lt (by omega)]
  · refine ⟨entries.length / 256 % 256, entries.length % 256, ?_, ?_, ?_, ?_, ?_⟩
    · rw [List.getElem?_append_right (by omega), hlen]; rfl
    · rw [List.getElem?_append_right (by omega), hlen]; rfl
    · omega
    · omega
    · omega
  · rw [List.getElem?_append_right (by omega), hlen]; rfl
  · rw [List.getElem?_append_right (by omega), hlen]; rfl

/-- Ten white entries: 772 bytes, entry 0 is `(255, 255, 255)`, the slot of entry
10 is zero, and the trailer count is 10. -/
theorem exportFormatB_layout_witness :
    ∃ bytes, exportFormatB (List.replicate 10 0x7FFF) = Except.ok bytes ∧
      bytes.length = 772 ∧ bytes[0]? = some 255 ∧ bytes[30]? = some 0 ∧
      bytes[768]? = some 0 ∧ bytes[769]? = some 10 := by
  obtain ⟨bytes, hok, -, hlen, hent, hzero, ⟨hi, lo, hhi, hlo, hhi', hlo', hsum⟩, -, -⟩ :=
    exportFormatB_layout (List.replicate 10 0x7FFF) (by decide) (by decide)
  have hsum' : 256 * hi + lo = 10 := by simpa using hsum
  have ehi : hi = 0 := by omega
  have elo : lo = 10 := by omega
  subst ehi elo
  exact ⟨bytes, hok, hlen, (hent 0 0x7FFF (by decide)).1, hzero 30 (by decide) (by decide),
    hhi, hlo⟩

end PaletteExporter
